import Mathlib

/-!
# Verification of the NickChunglolz/rate-limiter decision pipeline

A shallow embedding of the Go sources of the `rate-limiter` repository:
the rule-engine domain (`rule-engine/internal/domain`, `rule-engine/internal/engine`),
the rate-limit domain (`rate-limiter/internal/domain`), the in-memory event store
and read model (`rate-limiter/internal/infrastructure`), the command and query
handlers (`rate-limiter/internal/handlers`), the rate-limiter service
(`rate-limiter/internal/api`) and the integrated admission service
(`rate-limiter/internal/integration`).

Conventions of the embedding:
* `time.Time` and `time.Duration` are both modelled as `Int` nanoseconds
  (Go stores both as nanosecond counts; the zero `time.Time` is modelled as `0`).
* A single call to the pipeline is modelled with one wall-clock instant `now`
  passed explicitly; the Go code calls `time.Now()` repeatedly inside one
  handler, which this embedding collapses to the single instant.
* Go `interface{}` values that flow through conditions and action parameters
  are modelled by the closed sum `GoValue`; Go maps used as repositories are
  modelled as functions or association lists; Go's mutable receivers become
  explicit state passing, and methods that return `error` return the state
  paired with an `Option Err`.
* Go floating point only ever reaches comparisons and integer truncation in
  this code base, so `float64`/`float32` payloads are modelled as `Rat`.
-/

namespace RateLimiterProof

/-- Nanoseconds per second (`time.Second`). -/
def nanosPerSecond : Int := 1000000000

/-- Nanoseconds per minute (`time.Minute`). -/
def nanosPerMinute : Int := 60 * nanosPerSecond

/-- Nanoseconds per hour (`time.Hour`). -/
def nanosPerHour : Int := 3600 * nanosPerSecond

/-- Go `Time.Truncate(d)`: rounds the instant down to a multiple of `d`
since the zero time; for `d ≤ 0` it returns the time unchanged. -/
def truncateTime (t d : Int) : Int :=
  if d ≤ 0 then t else t - t.emod d

/-- Comparable Go `interface{}` payloads (dynamic types for which Go `==`
is defined). Distinct constructors model distinct Go dynamic types, so Go
interface equality is plain equality of `GoScalar`. -/
inductive GoScalar where
  | sString (s : String)
  | sInt (n : Int)
  | sInt64 (n : Int)
  | sFloat64 (q : Rat)
  | sFloat32 (q : Rat)
  | sBool (b : Bool)
  | sTime (t : Int)
deriving DecidableEq, Repr

/-- Dynamically typed Go `interface{}` values as they occur in rule
conditions, evaluation contexts and action parameters
(`rule-engine/internal/domain`): either a comparable scalar or a
`[]interface{}` of scalars (Go `==` panics on slice-typed elements, so
only scalar elements are meaningful candidates for `in`/`not_in`). -/
inductive GoValue where
  | scalar (v : GoScalar)
  | vList (vs : List GoScalar)
deriving DecidableEq, Repr

/-- Go `interface{}` holding a `string`. -/
def GoValue.vString (s : String) : GoValue := .scalar (.sString s)

/-- Go `interface{}` holding an `int`. -/
def GoValue.vInt (n : Int) : GoValue := .scalar (.sInt n)

/-- Go `interface{}` holding an `int64`. -/
def GoValue.vInt64 (n : Int) : GoValue := .scalar (.sInt64 n)

/-- Go `interface{}` holding a `float64`. -/
def GoValue.vFloat64 (q : Rat) : GoValue := .scalar (.sFloat64 q)

/-- Go `interface{}` holding a `time.Time`. -/
def GoValue.vTime (t : Int) : GoValue := .scalar (.sTime t)

/-- `domain.RuleCondition`: a `(field, operator, value)` triple. -/
structure RuleCondition where
  field : String
  operator : String
  value : GoValue
deriving DecidableEq, Repr

/-- `domain.RuleAction`: an action type plus heterogeneous parameters
(`map[string]interface{}` modelled as an association list). -/
structure RuleAction where
  type : String
  parameters : List (String × GoValue)
deriving DecidableEq, Repr

/-- `domain.Rule`: a security rule of the rule engine. -/
structure Rule where
  id : String
  name : String
  ruleType : String
  priority : Int
  enabled : Bool
  conditions : List RuleCondition
  actions : List RuleAction
deriving DecidableEq, Repr

/-- `domain.RuleEvaluationContext`: per-request data for rule evaluation. -/
structure RuleEvaluationContext where
  clientID : String
  resource : String
  ipAddress : String
  userAgent : String
  timestamp : Int
  metadata : List (String × String)
  requestData : List (String × GoValue)
deriving DecidableEq, Repr

/-- `domain.RuleEvaluationResult`: the outcome of evaluating one rule. -/
structure RuleEvaluationResult where
  ruleID : String
  ruleName : String
  matched : Bool
  actions : List RuleAction
deriving DecidableEq, Repr

/-- `findSubstring` helper: auxiliary scan that returns the index of the
first occurrence of `sub` in `s` (offset by `i`), `-1` when absent. -/
def findSubstringAux (sub : List Char) : List Char → Nat → Int
  | s, i =>
    if sub.isPrefixOf s then (i : Int)
    else
      match s with
      | [] => -1
      | _ :: t => findSubstringAux sub t (i + 1)

/-- `findSubstring` from `rule_evaluator`: naive substring search returning
the first index, or `-1`. -/
def findSubstring (str substr : String) : Int :=
  if substr.length = 0 then 0
  else if substr.length > str.length then -1
  else findSubstringAux substr.toList str.toList 0

/-- `containsString` from the source, bug included: besides requiring the
substring to occur it also requires `len(str) >= len(substr)` and
`str != substr`, so a string never "contains" itself. -/
def containsString (str substr : String) : Bool :=
  decide (substr.length ≤ str.length) && str != substr
    && findSubstring str substr != -1

/-- The numeric coercion of `compareNumbers`: Go `int`, `int64`, `float64`
and `float32` payloads coerce to a number; everything else does not. -/
def numericValue : GoValue → Option Rat
  | .scalar (.sInt n) => some (n : Rat)
  | .scalar (.sInt64 n) => some (n : Rat)
  | .scalar (.sFloat64 q) => some q
  | .scalar (.sFloat32 q) => some q
  | _ => none

/-- `compareNumbers` from the source. The Go function declares `var ok bool`,
never assigns it, and guards the final comparison with `if !ok { return 0 }`;
the guard therefore always fires and the function returns `0` on every input.
The dead comparison branches are kept to mirror the source. -/
def compareNumbers (a b : GoValue) : Int :=
  match numericValue a with
  | none => 0
  | some aVal =>
    match numericValue b with
    | none => 0
    | some bVal =>
      let ok := false
      if !ok then 0
      else if aVal > bVal then 1
      else if aVal < bVal then -1
      else 0

/-- Field resolution of `evaluateCondition`: fixed fields come from the
context; unknown names are looked up in `metadata`, then `requestData`. -/
def resolveField (ctx : RuleEvaluationContext) (field : String) : Option GoValue :=
  match field with
  | "client_id" => some (.scalar (.sString ctx.clientID))
  | "resource" => some (.scalar (.sString ctx.resource))
  | "ip_address" => some (.scalar (.sString ctx.ipAddress))
  | "user_agent" => some (.scalar (.sString ctx.userAgent))
  | "timestamp" => some (.scalar (.sTime ctx.timestamp))
  | _ =>
    match ctx.metadata.lookup field with
    | some v => some (.scalar (.sString v))
    | none =>
      match ctx.requestData.lookup field with
      | some v => some v
      | none => none

/-- `evaluateCondition` from `rule-engine/internal/domain`: resolves the
field (a missing field makes the condition false), then dispatches on the
operator. String slicing in Go is byte-based; this embedding uses
character-based `String.take`/`String.drop`, which agree on the ASCII
field values this repository uses. -/
def evaluateCondition (cond : RuleCondition) (ctx : RuleEvaluationContext) : Bool :=
  match resolveField ctx cond.field with
  | none => false
  | some fieldValue =>
    match cond.operator with
    | "equals" => fieldValue == cond.value
    | "not_equals" => fieldValue != cond.value
    | "contains" =>
      match fieldValue, cond.value with
      | .scalar (.sString str), .scalar (.sString substr) => containsString str substr
      | _, _ => false
    | "starts_with" =>
      match fieldValue, cond.value with
      | .scalar (.sString str), .scalar (.sString pre) =>
        decide (pre.length ≤ str.length) && str.take pre.length == pre
      | _, _ => false
    | "ends_with" =>
      match fieldValue, cond.value with
      | .scalar (.sString str), .scalar (.sString suffix) =>
        decide (suffix.length ≤ str.length)
          && str.drop (str.length - suffix.length) == suffix
      | _, _ => false
    | "in" =>
      match cond.value with
      | .vList values => values.any (fun v => fieldValue == GoValue.scalar v)
      | _ => false
    | "not_in" =>
      match cond.value with
      | .vList values => !values.any (fun v => fieldValue == GoValue.scalar v)
      | _ => false
    | "greater_than" => compareNumbers fieldValue cond.value > 0
    | "less_than" => compareNumbers fieldValue cond.value < 0
    | "greater_equal" => compareNumbers fieldValue cond.value ≥ 0
    | "less_equal" => compareNumbers fieldValue cond.value ≤ 0
    | _ => false

/-- `Rule.EvaluateRule`: disabled rules never match; otherwise all
conditions must hold (conjunction), and on a match the rule's actions are
returned. -/
def evaluateRule (r : Rule) (ctx : RuleEvaluationContext) : RuleEvaluationResult :=
  if !r.enabled then
    { ruleID := r.id, ruleName := r.name, matched := false, actions := [] }
  else
    let matched := r.conditions.all (fun c => evaluateCondition c ctx)
    { ruleID := r.id, ruleName := r.name, matched,
      actions := if matched then r.actions else [] }

/-- Is `res` a matched result carrying a `deny` or `block` action?
(the predicate scanned by `HasBlockingAction` and
`getFirstBlockingRuleID` in the sources). -/
def isBlockingResult (res : RuleEvaluationResult) : Bool :=
  res.matched && res.actions.any (fun a => a.type == "deny" || a.type == "block")

/-- `RuleEngine.HasBlockingAction`: true iff some matched result carries a
`deny` or `block` action. -/
def hasBlockingAction (results : List RuleEvaluationResult) : Bool :=
  results.any isBlockingResult

/-- `getFirstBlockingRuleID` from the integrated service: the rule id of
the first matched result (in list order) with a `deny`/`block` action,
or `""`. -/
def getFirstBlockingRuleID : List RuleEvaluationResult → String
  | [] => ""
  | res :: rest =>
    if isBlockingResult res then res.ruleID else getFirstBlockingRuleID rest

/-- `RuleEngine.GetRateLimitActions`: the `rate_limit` actions of matched
results, flattened in evaluation order. -/
def getRateLimitActions (results : List RuleEvaluationResult) : List RuleAction :=
  results.flatMap fun res =>
    if res.matched then res.actions.filter (fun a => a.type == "rate_limit") else []

/-- Insert one rule into a list sorted descending by priority (the order
produced by `sort.Slice(rules, priority_i > priority_j)` in
`EvaluateRules`; Go's sort is unstable, so ties carry no contract and any
fixed order refines the source). -/
def insertByPriority (r : Rule) : List Rule → List Rule
  | [] => [r]
  | x :: xs => if r.priority > x.priority then r :: x :: xs else x :: insertByPriority r xs

/-- Sort rules descending by priority (higher priority first). -/
def sortRulesByPriority (rules : List Rule) : List Rule :=
  rules.foldr insertByPriority []

/-- `RuleEngine.EvaluateRules`: take the enabled rules (the repository's
`GetActiveRules`), sort them descending by priority and evaluate each one.
The per-rule `RuleEvaluated`/`RuleMatched` publications go to the
rule-engine event publisher, never touch the state modelled here, and
publication failures are logged and ignored by the source, so they are
dropped from the embedding. -/
def evaluateRules (rules : List Rule) (ctx : RuleEvaluationContext) :
    List RuleEvaluationResult :=
  (sortRulesByPriority (rules.filter (·.enabled))).map (fun r => evaluateRule r ctx)

/-- `determineReason` helper: scan matched results for the first `allow`
or `throttle` action (the Go double loop with an early `return`). -/
def matchedRuleReason : List RuleEvaluationResult → String
  | [] => "allowed"
  | res :: rest =>
    if res.matched then
      match res.actions.find? (fun a => a.type == "allow" || a.type == "throttle") with
      | some a => if a.type == "allow" then "allowed by rule" else "throttled by rule"
      | none => matchedRuleReason rest
    else matchedRuleReason rest

/-! ## Rate-limit domain (`rate-limiter/internal/domain`) -/

/-- `domain.RateLimitRule`: an engine-configured rate-limit rule.
`window` is a `time.Duration` in nanoseconds. -/
structure RateLimitRule where
  id : String
  resource : String
  limit : Int
  window : Int
  algorithm : String
deriving DecidableEq, Repr

/-- `domain.RateLimitState`: the mutable state of one aggregate. -/
structure RateLimitState where
  clientID : String
  resource : String
  requestCount : Int
  windowStart : Int
  windowEnd : Int
  remainingQuota : Int
  lastRequestAt : Int
  isBlocked : Bool
  blockedUntil : Int
  version : Int
deriving DecidableEq, Repr

/-- The `domain.BaseEvent` fields shared by every event. -/
structure BaseEvent where
  id : String
  eventType : String
  time : Int
  aggrID : String
  version : Int
deriving DecidableEq, Repr

/-- `domain.RateLimitAppliedEvent` payload. -/
structure AppliedData where
  base : BaseEvent
  clientID : String
  resource : String
  windowStart : Int
  windowEnd : Int
  requestCount : Int
  limit : Int
  remainingQuota : Int
deriving DecidableEq, Repr

/-- `domain.RateLimitExceededEvent` payload. -/
structure ExceededData where
  base : BaseEvent
  clientID : String
  resource : String
  requestCount : Int
  limit : Int
  windowStart : Int
  windowEnd : Int
  blockedUntil : Int
deriving DecidableEq, Repr

/-- `domain.RateLimitWindowResetEvent` payload. -/
structure ResetData where
  base : BaseEvent
  clientID : String
  resource : String
  windowStart : Int
deriving DecidableEq, Repr

/-- `domain.Event`: the closed sum of rate-limit events. -/
inductive Event where
  | applied (e : AppliedData)
  | exceeded (e : ExceededData)
  | windowReset (e : ResetData)
deriving DecidableEq, Repr

/-- The `EventType()` string of an event. -/
def Event.eventType : Event → String
  | .applied _ => "RateLimitApplied"
  | .exceeded _ => "RateLimitExceeded"
  | .windowReset _ => "RateLimitWindowReset"

/-- `domain.RateLimitAggregate`. -/
structure RateLimitAggregate where
  id : String
  state : RateLimitState
  events : List Event
  version : Int
deriving DecidableEq, Repr

/-- `domain.NewRateLimitAggregate`: the fresh aggregate; every time field
is the Go zero time, modelled as `0`. -/
def newRateLimitAggregate (clientID resource : String) : RateLimitAggregate :=
  { id := clientID ++ ":" ++ resource
    state :=
      { clientID, resource
        requestCount := 0, windowStart := 0, windowEnd := 0
        remainingQuota := 0, lastRequestAt := 0
        isBlocked := false, blockedUntil := 0, version := 0 }
    events := []
    version := 0 }

/-- `RateLimitAggregate.ApplyEvent`: update state per event variant, then
unconditionally bump the version and append the event. The `applied`
branch sets `lastRequestAt` to `time.Now()`, passed here as `now`; note
that (unlike the spec's description) it does not clear `isBlocked`. -/
def applyEvent (a : RateLimitAggregate) (event : Event) (now : Int) : RateLimitAggregate :=
  let st :=
    match event with
    | .applied e =>
      { a.state with
        requestCount := e.requestCount
        windowStart := e.windowStart
        windowEnd := e.windowEnd
        remainingQuota := e.remainingQuota
        lastRequestAt := now }
    | .exceeded e =>
      { a.state with
        isBlocked := true
        blockedUntil := e.blockedUntil
        requestCount := e.requestCount }
    | .windowReset e =>
      { a.state with
        requestCount := 0
        windowStart := e.windowStart
        isBlocked := false
        blockedUntil := 0 }
  { a with state := st, version := a.version + 1, events := a.events ++ [event] }

/-- Replay an event list onto a fresh aggregate, as `handleApplyRateLimit`
does before deciding. -/
def replayAggregate (clientID resource : String) (events : List Event) (now : Int) :
    RateLimitAggregate :=
  events.foldl (fun a e => applyEvent a e now) (newRateLimitAggregate clientID resource)

/-- `RateLimitAggregate.CanMakeRequest`: allowed when not inside a block,
when the current window has expired, or when quota remains. -/
def canMakeRequest (a : RateLimitAggregate) (_rule : RateLimitRule) (now : Int) : Bool :=
  if a.state.isBlocked && decide (now < a.state.blockedUntil) then false
  else if decide (now > a.state.windowEnd) then true
  else decide (a.state.remainingQuota > 0)

/-! ## Event store and errors (`rate-limiter/internal/infrastructure`) -/

/-- Errors surfaced by stores and handlers (Go `error` values). -/
inductive Err where
  | concurrencyConflict (expected got : Int)
  | noRulesForResource (resource : String)
deriving DecidableEq, Repr

/-- `InMemoryEventStore.events`: map from aggregate id to its event list
(a missing key reads as the empty list, as a Go map does). -/
def EventStore := String → List Event

/-- `InMemoryEventStore.SaveEvents` in state-passing style: fail with a
concurrency conflict when the stored length differs from
`expectedVersion`, leaving the store untouched; otherwise append the new
events after the existing ones. -/
def saveEvents (s : EventStore) (aggregateID : String) (events : List Event)
    (expectedVersion : Int) : EventStore × Option Err :=
  let existingEvents := s aggregateID
  if (existingEvents.length : Int) ≠ expectedVersion then
    (s, some (.concurrencyConflict expectedVersion existingEvents.length))
  else
    (fun k => if k = aggregateID then existingEvents ++ events else s k, none)

/-- `InMemoryEventStore.GetEvents`: all events of an aggregate, in
insertion order. -/
def getEvents (s : EventStore) (aggregateID : String) : List Event :=
  s aggregateID

/-! ## Command handlers (`rate-limiter/internal/handlers`) -/

/-- The rate-limit rule repository: `GetByResource` filters by resource.
The source backs it by a Go map and iterates it in unspecified order; the
embedding fixes insertion order, which refines the source's
"first rule" selection. -/
def getByResource (repo : List RateLimitRule) (resource : String) : List RateLimitRule :=
  repo.filter (fun r => r.resource == resource)

/-- `handleApplyRateLimit`: rehydrate the aggregate from its events, pick
the first rule for the resource (failing without one), emit
`RateLimitApplied` when `CanMakeRequest` holds and `RateLimitExceeded`
otherwise, and persist through `SaveEvents` with
`expectedVersion = aggregate.Version`. Event ids embed `now` where Go
embeds `time.Now().UnixNano()`. -/
def handleApplyRateLimit (store : EventStore) (repo : List RateLimitRule)
    (clientID resource : String) (now : Int) : EventStore × Option Err :=
  let aggregateID := clientID ++ ":" ++ resource
  let events := getEvents store aggregateID
  let aggregate := replayAggregate clientID resource events now
  match getByResource repo resource with
  | [] => (store, some (.noRulesForResource resource))
  | rule :: _ =>
    let newEvents :=
      if canMakeRequest aggregate rule now then
        [Event.applied
          { base :=
              { id := "applied-" ++ toString now, eventType := "RateLimitApplied"
                time := now, aggrID := aggregateID, version := aggregate.version + 1 }
            clientID, resource
            windowStart := truncateTime now rule.window
            windowEnd := truncateTime now rule.window + rule.window
            requestCount := aggregate.state.requestCount + 1
            limit := rule.limit
            remainingQuota := rule.limit - (aggregate.state.requestCount + 1) }]
      else
        [Event.exceeded
          { base :=
              { id := "exceeded-" ++ toString now, eventType := "RateLimitExceeded"
                time := now, aggrID := aggregateID, version := aggregate.version + 1 }
            clientID, resource
            requestCount := aggregate.state.requestCount + 1
            limit := rule.limit
            windowStart := aggregate.state.windowStart
            windowEnd := aggregate.state.windowEnd
            blockedUntil := aggregate.state.windowEnd }]
    saveEvents store aggregateID newEvents aggregate.version

/-- `handleCreateRule`: save a new rate-limit rule; the in-memory `Save`
never fails. The generated id embeds `now` where Go embeds
`time.Now().UnixNano()`. -/
def handleCreateRule (repo : List RateLimitRule) (resource : String) (limit window : Int)
    (algorithm : String) (now : Int) : List RateLimitRule :=
  repo ++ [{ id := "rule-" ++ toString now, resource, limit, window, algorithm }]

/-- `handleResetRateLimit`: emit a `RateLimitWindowReset` stamped at the
current wall time. The source hardcodes the event version to `1` and
calls `SaveEvents` with `expectedVersion = 0` without rehydrating the
aggregate. -/
def handleResetRateLimit (store : EventStore) (clientID resource : String) (now : Int) :
    EventStore × Option Err :=
  let aggregateID := clientID ++ ":" ++ resource
  let event : Event := .windowReset
    { base :=
        { id := "reset-" ++ toString now, eventType := "RateLimitWindowReset"
          time := now, aggrID := aggregateID, version := 1 }
      clientID, resource
      windowStart := now }
  saveEvents store aggregateID [event] 0

/-! ## Read model (`rate-limiter/internal/queries`, `InMemoryReadModel`) -/

/-- `queries.RateLimitStatus`: the read-model status entity. -/
structure RateLimitStatus where
  clientID : String
  resource : String
  isAllowed : Bool
  requestCount : Int
  limit : Int
  remainingQuota : Int
  windowStart : Int
  windowEnd : Int
  resetTime : Int
  isBlocked : Bool
  blockedUntil : Int
  retryAfter : Int
deriving DecidableEq, Repr

/-- `queries.RateLimitEvent`: one history record. -/
structure HistoryEvent where
  eventID : String
  eventType : String
  clientID : String
  resource : String
  timestamp : Int
  requestCount : Int
  limit : Int
  isBlocked : Bool
deriving DecidableEq, Repr

/-- `queries.RateLimitHistory`: the history query response. -/
structure RateLimitHistory where
  events : List HistoryEvent
  totalCount : Nat
  hasMore : Bool
deriving DecidableEq, Repr

/-- `InMemoryReadModel`: statuses and history, both keyed by
`clientId:resource`. The client-stats index is maintained by the same
projection but is not consulted by any operation modelled here, so it is
omitted from the embedding. -/
structure ReadModel where
  statuses : String → Option RateLimitStatus
  history : String → List HistoryEvent

/-- The empty read model (`NewInMemoryReadModel`). -/
def ReadModel.empty : ReadModel :=
  { statuses := fun _ => none, history := fun _ => [] }

/-- `InMemoryReadModel.GetRateLimitStatus`: the stored status, or the
default allowing status when the key is absent. -/
def getRateLimitStatusRM (rm : ReadModel) (clientID resource : String) (now : Int) :
    RateLimitStatus :=
  match rm.statuses (clientID ++ ":" ++ resource) with
  | some status => status
  | none =>
    { clientID, resource
      isAllowed := true, requestCount := 0, limit := 0, remainingQuota := 0
      windowStart := now, windowEnd := now + nanosPerHour
      resetTime := now + nanosPerHour
      isBlocked := false, blockedUntil := 0, retryAfter := 0 }

/-- `InMemoryReadModel.GetRateLimitHistory`: filter the key's history to
timestamps strictly between `startTime` and `endTime`
(`Timestamp.After(startTime) && Timestamp.Before(endTime)`), then page
with `offset`/`limit`. -/
def getRateLimitHistory (rm : ReadModel) (clientID resource : String)
    (startTime endTime : Int) (limit offset : Nat) : RateLimitHistory :=
  let allEvents := rm.history (clientID ++ ":" ++ resource)
  let filteredEvents :=
    allEvents.filter (fun e => decide (startTime < e.timestamp) && decide (e.timestamp < endTime))
  let totalCount := filteredEvents.length
  if offset ≥ totalCount then
    { events := [], totalCount, hasMore := false }
  else
    let stop := min (offset + limit) totalCount
    { events := (filteredEvents.drop offset).take (stop - offset)
      totalCount
      hasMore := stop < totalCount }

/-- `InMemoryReadModel.UpdateFromEvent`. `applied` overwrites the status
with an allowing one; `exceeded` overwrites it with a blocking one and a
clamped `retryAfter`; `windowReset` zeroes the counters of an existing
status (leaving `isAllowed` as it was) and does nothing to an absent one.
All three append a history record. Client statistics updates are omitted
(see `ReadModel`). -/
def updateFromEvent (rm : ReadModel) (event : Event) (now : Int) : ReadModel :=
  match event with
  | .applied e =>
    let key := e.clientID ++ ":" ++ e.resource
    let status : RateLimitStatus :=
      { clientID := e.clientID, resource := e.resource
        isAllowed := true, requestCount := e.requestCount, limit := e.limit
        remainingQuota := e.remainingQuota
        windowStart := e.windowStart, windowEnd := e.windowEnd, resetTime := e.windowEnd
        isBlocked := false, blockedUntil := 0, retryAfter := 0 }
    let record : HistoryEvent :=
      { eventID := e.base.id, eventType := "RateLimitApplied"
        clientID := e.clientID, resource := e.resource, timestamp := e.base.time
        requestCount := e.requestCount, limit := e.limit, isBlocked := false }
    { statuses := fun k => if k = key then some status else rm.statuses k
      history := fun k => if k = key then rm.history k ++ [record] else rm.history k }
  | .exceeded e =>
    let key := e.clientID ++ ":" ++ e.resource
    let retryAfter := max 0 ((e.blockedUntil - now).tdiv nanosPerSecond)
    let status : RateLimitStatus :=
      { clientID := e.clientID, resource := e.resource
        isAllowed := false, requestCount := e.requestCount, limit := e.limit
        remainingQuota := 0
        windowStart := e.windowStart, windowEnd := e.windowEnd, resetTime := e.windowEnd
        isBlocked := true, blockedUntil := e.blockedUntil, retryAfter }
    let record : HistoryEvent :=
      { eventID := e.base.id, eventType := "RateLimitExceeded"
        clientID := e.clientID, resource := e.resource, timestamp := e.base.time
        requestCount := e.requestCount, limit := e.limit, isBlocked := true }
    { statuses := fun k => if k = key then some status else rm.statuses k
      history := fun k => if k = key then rm.history k ++ [record] else rm.history k }
  | .windowReset e =>
    let key := e.clientID ++ ":" ++ e.resource
    let record : HistoryEvent :=
      { eventID := e.base.id, eventType := "RateLimitWindowReset"
        clientID := e.clientID, resource := e.resource, timestamp := e.base.time
        requestCount := 0, limit := 0, isBlocked := false }
    { statuses := fun k =>
        if k = key then
          match rm.statuses k with
          | some status =>
            some { status with
              requestCount := 0
              remainingQuota := status.limit
              windowStart := e.windowStart
              isBlocked := false, blockedUntil := 0, retryAfter := 0 }
          | none => none
        else rm.statuses k
      history := fun k => if k = key then rm.history k ++ [record] else rm.history k }

/-! ## Rate limiter service (`rate-limiter/internal/api`) -/

/-- `RateLimiterService.CheckRateLimit`: query the current status; when it
is blocked and `now` is before `blockedUntil`, return it immediately
without issuing a command. Otherwise dispatch `ApplyRateLimit` and query
the status again. The projection that would refresh the read model runs
asynchronously off the event bus (and the command handler never publishes
to that bus), so the command leaves `rm` unchanged and the second query
reads the same read model. -/
def checkRateLimitService (store : EventStore) (repo : List RateLimitRule)
    (rm : ReadModel) (clientID resource : String) (now : Int) :
    Except Err (RateLimitStatus × EventStore) :=
  let currentStatus := getRateLimitStatusRM rm clientID resource now
  if currentStatus.isBlocked && decide (now < currentStatus.blockedUntil) then
    .ok (currentStatus, store)
  else
    match handleApplyRateLimit store repo clientID resource now with
    | (_, some e) => .error e
    | (store', none) => .ok (getRateLimitStatusRM rm clientID resource now, store')

/-! ## Integrated admission service (`rate-limiter/internal/integration`) -/

/-- Go `int(f)` on a float: truncation toward zero. -/
def intOfFloat (q : Rat) : Int :=
  if 0 ≤ q then q.floor else q.ceil

/-- Nanoseconds of one Go duration unit, for the units
`time.ParseDuration` accepts. -/
def unitNanos : String → Option Int
  | "ns" => some 1
  | "us" => some 1000
  | "ms" => some 1000000
  | "s" => some nanosPerSecond
  | "m" => some nanosPerMinute
  | "h" => some nanosPerHour
  | _ => none

/-- Leading decimal digits of a character list. -/
def takeDigits : List Char → List Char × List Char
  | [] => ([], [])
  | c :: t =>
    if c.isDigit then
      let (ds, rest) := takeDigits t
      (c :: ds, rest)
    else ([], c :: t)

/-- Leading unit letters of a character list. -/
def takeUnit : List Char → List Char × List Char
  | [] => ([], [])
  | c :: t =>
    if c.isAlpha then
      let (us, rest) := takeUnit t
      (c :: us, rest)
    else ([], c :: t)

/-- Digits to a natural-number value. -/
def digitsToInt (ds : List Char) : Int :=
  ds.foldl (fun acc c => acc * 10 + ((c.toNat - '0'.toNat : Nat) : Int)) 0

/-- Fueled loop of `parseDuration`: repeated `<digits><unit>` components. -/
def parseDurationAux : Nat → List Char → Option Int
  | _, [] => some 0
  | 0, _ => none
  | fuel + 1, cs =>
    let (ds, rest1) := takeDigits cs
    if ds.isEmpty then none
    else
      let (us, rest2) := takeUnit rest1
      match unitNanos (String.mk us) with
      | none => none
      | some mult =>
        match parseDurationAux fuel rest2 with
        | none => none
        | some rest => some (digitsToInt ds * mult + rest)

/-- `time.ParseDuration` restricted to the shapes this repository feeds it
(unsigned integer components with `ns`/`us`/`ms`/`s`/`m`/`h` units, e.g.
`"5m"`, `"1h30m"`, `"30s"`, and the bare `"0"`): nanoseconds on success. -/
def parseDuration (s : String) : Option Int :=
  if s = "0" then some 0
  else if s.isEmpty then none
  else parseDurationAux s.length s.toList

/-- The `limit` coercion of `applyDynamicRateLimiting`: `int` and
`float64` payloads convert; a string parses via `strconv.Atoi`, anything
else leaves the zero value. -/
def dynamicLimit : GoValue → Int
  | .scalar (.sInt n) => n
  | .scalar (.sFloat64 q) => intOfFloat q
  | .scalar (.sString s) =>
    match s.toInt? with
    | some n => n
    | none => 0
  | _ => 0

/-- The `window` coercion of `applyDynamicRateLimiting`: a string parses
as a duration, `int` and `float64` count seconds, anything else leaves
the zero value. -/
def dynamicWindow : GoValue → Int
  | .scalar (.sString s) =>
    match parseDuration s with
    | some d => d
    | none => 0
  | .scalar (.sInt n) => n * nanosPerSecond
  | .scalar (.sFloat64 q) => intOfFloat q * nanosPerSecond
  | _ => 0

/-- The `algorithm` coercion of `applyDynamicRateLimiting`: absent
defaults to `"sliding_window"`; present but non-string leaves the zero
value `""`. -/
def dynamicAlgorithm : Option GoValue → String
  | none => "sliding_window"
  | some (.scalar (.sString a)) => a
  | some _ => ""

/-- `applyDynamicRateLimiting`: for each `rate_limit` action whose
parameters carry both `limit` and `window`, coerce them and — when both
are positive — install a fresh rate-limit rule for the current resource
through `CreateRule` (the in-memory save never fails). -/
def applyDynamicRateLimiting (repo : List RateLimitRule) (actions : List RuleAction)
    (resource : String) (now : Int) : List RateLimitRule :=
  actions.foldl
    (fun rules action =>
      if action.type == "rate_limit" then
        match action.parameters.lookup "limit", action.parameters.lookup "window" with
        | some limitV, some windowV =>
          let limitInt := dynamicLimit limitV
          let windowDuration := dynamicWindow windowV
          if limitInt > 0 && windowDuration > 0 then
            handleCreateRule rules resource limitInt windowDuration
              (dynamicAlgorithm (action.parameters.lookup "algorithm")) now
          else rules
        | _, _ => rules
      else rules)
    repo

/-- `integration.RequestCheckResult`. -/
structure RequestCheckResult where
  allowed : Bool
  reason : String
  ruleResults : List RuleEvaluationResult
  rateLimitStatus : Option RateLimitStatus
  blockingRuleID : String
deriving DecidableEq, Repr

/-- The full shared state the integrated service touches: the rule-engine
repository, the rate-limit rule repository, the event store and the read
model. -/
structure SystemState where
  secRules : List Rule
  rlRules : List RateLimitRule
  eventStore : EventStore
  readModel : ReadModel

/-- `determineReason` from the integrated service. -/
def determineReason (status : RateLimitStatus) (results : List RuleEvaluationResult) :
    String :=
  if !status.isAllowed then "rate limited" else matchedRuleReason results

/-- `IntegratedRateLimiterService.CheckRequestWithRules`: evaluate the
security rules; short-circuit to a deny when a matched rule carries a
blocking action; otherwise install dynamic rate-limit rules from matched
`rate_limit` actions and run `CheckRateLimit`. -/
def checkRequestWithRules (st : SystemState)
    (clientID resource ipAddress userAgent : String)
    (metadata : List (String × String)) (requestData : List (String × GoValue))
    (now : Int) : Except Err (RequestCheckResult × SystemState) :=
  let evalCtx : RuleEvaluationContext :=
    { clientID, resource, ipAddress, userAgent, timestamp := now, metadata, requestData }
  let ruleResults := evaluateRules st.secRules evalCtx
  if hasBlockingAction ruleResults then
    .ok
      ({ allowed := false, reason := "blocked by rule", ruleResults
         rateLimitStatus := none
         blockingRuleID := getFirstBlockingRuleID ruleResults }, st)
  else
    let rateLimitActions := getRateLimitActions ruleResults
    let rlRules :=
      if rateLimitActions.length > 0 then
        applyDynamicRateLimiting st.rlRules rateLimitActions resource now
      else st.rlRules
    match checkRateLimitService st.eventStore rlRules st.readModel clientID resource now with
    | .error e => .error e
    | .ok (status, store') =>
      let reason :=
        if !status.isAllowed then "rate limited" else determineReason status ruleResults
      .ok
        ({ allowed := status.isAllowed, reason, ruleResults
           rateLimitStatus := some status, blockingRuleID := "" },
         { st with rlRules, eventStore := store' })

/-! ## Concrete sample data for closed instances -/

/-- A history record stamped exactly at a query window's start. -/
def sampleBoundaryEvent : HistoryEvent :=
  { eventID := "e1", eventType := "RateLimitApplied", clientID := "u", resource := "api"
    timestamp := 50, requestCount := 1, limit := 10, isBlocked := false }

/-- A read model whose only history entry for `u:api` is
`sampleBoundaryEvent`. -/
def sampleBoundaryRM : ReadModel :=
  { statuses := fun _ => none
    history := fun k => if k = "u:api" then [sampleBoundaryEvent] else [] }

/-- The applied event a `limit = 0` rule emits for the first request of a
minute window starting at the epoch. -/
def sampleZeroApplied : Event :=
  .applied
    { base :=
        { id := "applied-1000000000", eventType := "RateLimitApplied"
          time := 1000000000, aggrID := "c:api", version := 1 }
      clientID := "c", resource := "api"
      windowStart := 0, windowEnd := 60000000000
      requestCount := 1, limit := 0, remainingQuota := -1 }

/-- A rate-limit rule allowing five requests per minute. -/
def sampleFiveRule : RateLimitRule :=
  { id := "r5", resource := "api", limit := 5, window := 60000000000
    algorithm := "sliding_window" }

/-! ## Helper lemmas -/

/-- Each `ApplyEvent` bumps the version by exactly one, so a fold adds the
list length. -/
theorem foldl_applyEvent_version (now : Int) (events : List Event) :
    ∀ a : RateLimitAggregate,
      (events.foldl (fun a e => applyEvent a e now) a).version = a.version + events.length := by
  induction events with
  | nil => intro a; simp
  | cons e t ih =>
    intro a
    have hv : (applyEvent a e now).version = a.version + 1 := rfl
    rw [List.foldl_cons, ih, hv, List.length_cons]
    push_cast
    ring

/-- Rehydration of a fresh aggregate yields version = event count. -/
theorem replayAggregate_version (clientID resource : String) (events : List Event)
    (now : Int) : (replayAggregate clientID resource events now).version = events.length := by
  unfold replayAggregate
  rw [foldl_applyEvent_version]
  simp [newRateLimitAggregate]

/-- `compareNumbers` returns `0` on every input: its `ok` flag is declared
and never set, so the `if !ok` guard always fires. -/
theorem compareNumbers_eq_zero (a b : GoValue) : compareNumbers a b = 0 := by
  unfold compareNumbers
  cases numericValue a <;> cases numericValue b <;> rfl

/-! ## C5 — aggregate version equals replayed event count -/

/-- C5: for every finite event sequence applied via `ApplyEvent` to a
fresh `RateLimitAggregate`, the aggregate's version after replay equals
the number of events applied. -/
theorem claim_c5_version_counts_events (clientID resource : String)
    (events : List Event) (now : Int) :
    (replayAggregate clientID resource events now).version = events.length :=
  replayAggregate_version clientID resource events now

/-! ## C2 — SaveEvents optimistic concurrency -/

/-- C2: `SaveEvents` fails with a concurrency conflict iff the stored
length for the aggregate differs from `expectedVersion`; on failure the
store is returned untouched (no partial append), and on success the new
events sit after the existing ones in order, other aggregates untouched. -/
theorem claim_c2_save_events_concurrency (s : EventStore) (aggregateID : String)
    (events : List Event) (expectedVersion : Int) :
    (((s aggregateID).length : Int) = expectedVersion →
      saveEvents s aggregateID events expectedVersion =
        (fun k => if k = aggregateID then s aggregateID ++ events else s k, none))
    ∧ (((s aggregateID).length : Int) ≠ expectedVersion →
      saveEvents s aggregateID events expectedVersion =
        (s, some (.concurrencyConflict expectedVersion (s aggregateID).length))) := by
  constructor
  · intro h
    simp [saveEvents, h]
  · intro h
    simp [saveEvents, h]

/-- Closed instance of C2, exercising both the conflicting and the
conflict-free case on concrete stores. -/
theorem claim_c2_save_events_concurrency_witness :
    saveEvents (fun _ => []) "c:api" [] 1
      = ((fun _ => []), some (.concurrencyConflict 1 0))
    ∧ saveEvents (fun _ => []) "c:api" [] 0 = (fun k => if k = "c:api" then [] else [], none) :=
  ⟨(claim_c2_save_events_concurrency (fun _ => []) "c:api" [] 1).2 (by decide),
   by
    have h := (claim_c2_save_events_concurrency (fun _ => []) "c:api" [] 0).1 (by decide)
    simpa using h⟩

/-! ## C10 — history window strictly exclusive at both endpoints -/

/-- C10: an event stamped exactly at `startTime` or exactly at `endTime`
appears neither in the events returned by `GetRateLimitHistory` nor in
its reported total count: the filter keeps only strictly interior
timestamps, so adding explicit endpoint exclusions to it does not change
the count. -/
theorem claim_c10_history_endpoints_excluded (rm : ReadModel)
    (clientID resource : String) (startTime endTime : Int) (limit offset : Nat)
    (e : HistoryEvent) (he : e.timestamp = startTime ∨ e.timestamp = endTime) :
    e ∉ (getRateLimitHistory rm clientID resource startTime endTime limit offset).events
    ∧ (getRateLimitHistory rm clientID resource startTime endTime limit offset).totalCount
      = ((rm.history (clientID ++ ":" ++ resource)).filter
          (fun ev => decide (startTime < ev.timestamp) && decide (ev.timestamp < endTime)
            && (ev.timestamp != startTime) && (ev.timestamp != endTime))).length := by
  constructor
  · intro hmem
    unfold getRateLimitHistory at hmem
    dsimp only at hmem
    split at hmem
    · simp at hmem
    · have hfilt : e ∈ (rm.history (clientID ++ ":" ++ resource)).filter
          (fun ev => decide (startTime < ev.timestamp) && decide (ev.timestamp < endTime)) :=
        List.drop_subset _ _ (List.take_subset _ _ hmem)
      rw [List.mem_filter] at hfilt
      have hand := hfilt.2
      simp only [Bool.and_eq_true, decide_eq_true_eq] at hand
      rcases he with he | he
      · exact absurd (he ▸ hand.1) (lt_irrefl _)
      · exact absurd (he ▸ hand.2) (lt_irrefl _)
  · have hcongr : (rm.history (clientID ++ ":" ++ resource)).filter
        (fun ev => decide (startTime < ev.timestamp) && decide (ev.timestamp < endTime))
      = (rm.history (clientID ++ ":" ++ resource)).filter
          (fun ev => decide (startTime < ev.timestamp) && decide (ev.timestamp < endTime)
            && (ev.timestamp != startTime) && (ev.timestamp != endTime)) := by
      apply List.filter_congr
      intro ev _
      by_cases h1 : startTime < ev.timestamp
      · by_cases h2 : ev.timestamp < endTime
        · simp [h1, h2, bne, h1.ne', h2.ne]
        · simp [h1, h2]
      · simp [h1]
    unfold getRateLimitHistory
    dsimp only
    split <;> simp [hcongr]

/-- Closed instance of C10: a history holding one event stamped exactly
at the window's start is reported with zero total count and no events. -/
theorem claim_c10_history_endpoints_excluded_witness :
    sampleBoundaryEvent ∉ (getRateLimitHistory sampleBoundaryRM "u" "api" 50 100 10 0).events
    ∧ (getRateLimitHistory sampleBoundaryRM "u" "api" 50 100 10 0).totalCount
      = (((sampleBoundaryRM.history ("u" ++ ":" ++ "api"))).filter
          (fun ev => decide ((50 : Int) < ev.timestamp) && decide (ev.timestamp < (100 : Int))
            && (ev.timestamp != (50 : Int)) && (ev.timestamp != (100 : Int)))).length :=
  claim_c10_history_endpoints_excluded sampleBoundaryRM "u" "api" 50 100 10 0
    sampleBoundaryEvent (Or.inl (by decide))

/-! ## C7 — numeric operators on non-numeric operands -/

/-- A sample evaluation context with string-valued fixed fields. -/
def sampleCtx : RuleEvaluationContext :=
  { clientID := "abc", resource := "api", ipAddress := "8.8.8.8"
    userAgent := "Mozilla", timestamp := 0, metadata := [], requestData := [] }

/-- C7 counterexample: a `greater_equal` condition whose two operands are
both strings (non-numeric) evaluates to `true`, not `false` as claimed:
`compareNumbers` yields `0` for non-numeric operands and `0 ≥ 0` holds. -/
theorem claim_c7_counterexample :
    evaluateCondition
      { field := "client_id", operator := "greater_equal", value := GoValue.vString "zzz" }
      sampleCtx = true := by
  decide

/-- C7 amended: with `greater_than` or `less_than` the condition is false
on every operand pair (in particular on non-numeric ones), while with
`greater_equal` or `less_equal` it is true whenever the field resolves —
also on non-numeric operands — because `compareNumbers` returns `0` on
every input. -/
theorem claim_c7_amended (cond : RuleCondition) (ctx : RuleEvaluationContext) :
    ((cond.operator = "greater_than" ∨ cond.operator = "less_than") →
      evaluateCondition cond ctx = false)
    ∧ ((cond.operator = "greater_equal" ∨ cond.operator = "less_equal") →
      (resolveField ctx cond.field).isSome →
      evaluateCondition cond ctx = true) := by
  constructor
  · rintro (hop | hop) <;>
      · unfold evaluateCondition
        rw [hop]
        cases hres : resolveField ctx cond.field with
        | none => rfl
        | some fieldValue => simp [compareNumbers_eq_zero]
  · rintro (hop | hop) hsome <;>
      · unfold evaluateCondition
        rw [hop]
        cases hres : resolveField ctx cond.field with
        | none => rw [hres] at hsome; simp at hsome
        | some fieldValue => simp [compareNumbers_eq_zero]

/-- Closed instance of C7 amended: `greater_than` on string operands is
false, `less_equal` on string operands is true. -/
theorem claim_c7_amended_witness :
    evaluateCondition
      { field := "client_id", operator := "greater_than", value := GoValue.vString "zzz" }
      sampleCtx = false
    ∧ evaluateCondition
      { field := "client_id", operator := "less_equal", value := GoValue.vString "zzz" }
      sampleCtx = true :=
  ⟨(claim_c7_amended
      { field := "client_id", operator := "greater_than", value := GoValue.vString "zzz" }
      sampleCtx).1 (Or.inl rfl),
   (claim_c7_amended
      { field := "client_id", operator := "less_equal", value := GoValue.vString "zzz" }
      sampleCtx).2 (Or.inr rfl) (by decide)⟩

/-! ## C8 — complement laws of equals/not_equals and in/not_in -/

/-- C8 counterexample: with a non-list condition value (here the plain
string `"y"`), `in` and `not_in` both evaluate to `false` on a resolved
field, so they are not complements. -/
theorem claim_c8_counterexample :
    ¬ (evaluateCondition
        { field := "client_id", operator := "not_in", value := GoValue.vString "y" }
        sampleCtx
      = !(evaluateCondition
          { field := "client_id", operator := "in", value := GoValue.vString "y" }
          sampleCtx)) := by
  decide

/-- C8 amended: on a resolved field, `not_equals` is the exact complement
of `equals` for every condition value; `not_in` is the exact complement
of `in` whenever the condition value is a candidate list, but when the
value is not a list both `in` and `not_in` evaluate to `false`. -/
theorem claim_c8_amended (ctx : RuleEvaluationContext) (field : String) (v : GoValue)
    (hres : (resolveField ctx field).isSome) :
    (evaluateCondition { field, operator := "not_equals", value := v } ctx
      = !(evaluateCondition { field, operator := "equals", value := v } ctx))
    ∧ (∀ vs, v = .vList vs →
        evaluateCondition { field, operator := "not_in", value := v } ctx
          = !(evaluateCondition { field, operator := "in", value := v } ctx))
    ∧ (∀ s, v = .scalar s →
        evaluateCondition { field, operator := "not_in", value := v } ctx = false
        ∧ evaluateCondition { field, operator := "in", value := v } ctx = false) := by
  cases hfv : resolveField ctx field with
  | none => rw [hfv] at hres; simp at hres
  | some fieldValue =>
    refine ⟨?_, ?_, ?_⟩
    · unfold evaluateCondition
      rw [hfv]
      simp [bne]
    · intro vs hv
      subst hv
      unfold evaluateCondition
      rw [hfv]
      rfl
    · intro s hv
      subst hv
      unfold evaluateCondition
      rw [hfv]
      exact ⟨rfl, rfl⟩

/-- Closed instance of C8 amended: complement laws on a concrete context,
plus the degenerate non-list behaviour. -/
theorem claim_c8_amended_witness :
    (evaluateCondition
        { field := "client_id", operator := "not_equals", value := GoValue.vString "abc" }
        sampleCtx
      = !(evaluateCondition
          { field := "client_id", operator := "equals", value := GoValue.vString "abc" }
          sampleCtx))
    ∧ evaluateCondition
        { field := "client_id", operator := "not_in",
          value := .vList [.sString "x", .sString "abc"] } sampleCtx
      = !(evaluateCondition
          { field := "client_id", operator := "in",
            value := .vList [.sString "x", .sString "abc"] } sampleCtx) :=
  ⟨(claim_c8_amended sampleCtx "client_id" (GoValue.vString "abc") (by decide)).1,
   (claim_c8_amended sampleCtx "client_id" (.vList [.sString "x", .sString "abc"])
      (by decide)).2.1 _ rfl⟩

/-! ## C3 — limit-zero rules -/

/-- The empty event store (`NewInMemoryEventStore`). -/
def freshStore : EventStore := fun _ => []

/-- A rate-limit rule with `limit = 0` over a one-minute window. -/
def zeroLimitRule : RateLimitRule :=
  { id := "r0", resource := "api", limit := 0, window := nanosPerMinute
    algorithm := "fixed_window" }

/-- C3 counterexample: under a `limit = 0` rule, the very first
`ApplyRateLimit` on a fresh aggregate succeeds and emits
`RateLimitApplied` — not `RateLimitExceeded` — because the fresh
aggregate's `windowEnd` is the zero time, so `CanMakeRequest` takes the
"window has expired" branch before ever consulting the quota. -/
theorem claim_c3_counterexample :
    (handleApplyRateLimit freshStore [zeroLimitRule] "c" "api" 1000000000).2 = none
    ∧ ((handleApplyRateLimit freshStore [zeroLimitRule] "c" "api" 1000000000).1 "c:api").map
        Event.eventType = ["RateLimitApplied"] := by
  decide

/-- C3 amended: under the selected `limit = 0` rule, an `ApplyRateLimit`
command that finds the aggregate inside a non-expired window
(`now ≤ windowEnd`) with no remaining quota appends exactly one
`RateLimitExceeded` event and no `RateLimitApplied`; the only escape —
realised by the fresh aggregate — is an expired window. -/
theorem claim_c3_amended (store : EventStore) (repo : List RateLimitRule)
    (clientID resource : String) (now : Int) (rule : RateLimitRule)
    (rest : List RateLimitRule)
    (hsel : getByResource repo resource = rule :: rest)
    (_hlimit : rule.limit = 0)
    (hwin : now ≤ (replayAggregate clientID resource
      (store (clientID ++ ":" ++ resource)) now).state.windowEnd)
    (hquota : (replayAggregate clientID resource
      (store (clientID ++ ":" ++ resource)) now).state.remainingQuota ≤ 0) :
    (handleApplyRateLimit store repo clientID resource now).2 = none
    ∧ ((handleApplyRateLimit store repo clientID resource now).1
        (clientID ++ ":" ++ resource)).map Event.eventType
      = (store (clientID ++ ":" ++ resource)).map Event.eventType
        ++ ["RateLimitExceeded"] := by
  have hcan : canMakeRequest (replayAggregate clientID resource
      (store (clientID ++ ":" ++ resource)) now) rule now = false := by
    unfold canMakeRequest
    have h1 : ¬ (now > (replayAggregate clientID resource
        (store (clientID ++ ":" ++ resource)) now).state.windowEnd) := not_lt.mpr hwin
    have h2 : ¬ ((replayAggregate clientID resource
        (store (clientID ++ ":" ++ resource)) now).state.remainingQuota > 0) :=
      not_lt.mpr hquota
    by_cases hb : (replayAggregate clientID resource
        (store (clientID ++ ":" ++ resource)) now).state.isBlocked
        && decide (now < (replayAggregate clientID resource
          (store (clientID ++ ":" ++ resource)) now).state.blockedUntil) <;>
      simp [hb, h1, h2]
  unfold handleApplyRateLimit
  rw [hsel]
  dsimp only [getEvents]
  rw [hcan]
  unfold saveEvents
  rw [if_neg (by simp [replayAggregate_version])]
  simp [Event.eventType]

/-- Closed instance of C3 amended: after the limit-zero rule has allowed
the first request of the window, the second request inside the same
window is denied with a `RateLimitExceeded` event. -/
theorem claim_c3_amended_witness :
    (handleApplyRateLimit
        (fun k => if k = "c:api" then [sampleZeroApplied] else []) [zeroLimitRule]
        "c" "api" 2000000000).2 = none
    ∧ ((handleApplyRateLimit
        (fun k => if k = "c:api" then [sampleZeroApplied] else []) [zeroLimitRule]
        "c" "api" 2000000000).1 ("c" ++ ":" ++ "api")).map Event.eventType
      = ((fun k => if k = "c:api" then [sampleZeroApplied] else [])
          ("c" ++ ":" ++ "api") : List Event).map Event.eventType
        ++ ["RateLimitExceeded"] :=
  claim_c3_amended (fun k => if k = "c:api" then [sampleZeroApplied] else [])
    [zeroLimitRule] "c" "api" 2000000000 zeroLimitRule []
    (by decide) (by decide) (by decide) (by decide)

/-! ## C6 — fields of the emitted RateLimitApplied event -/

/-- C6: whenever the rehydrated aggregate passes `CanMakeRequest` under
the selected rule, `handleApplyRateLimit` succeeds and appends exactly
the `RateLimitApplied` event whose window is `now` truncated to the
rule's window, whose `windowEnd` adds the window, whose request count is
the replayed prior count plus one, and whose remaining quota is the limit
minus that. -/
theorem claim_c6_applied_event_fields (store : EventStore) (repo : List RateLimitRule)
    (clientID resource : String) (now : Int) (rule : RateLimitRule)
    (rest : List RateLimitRule)
    (hsel : getByResource repo resource = rule :: rest)
    (hcan : canMakeRequest (replayAggregate clientID resource
      (store (clientID ++ ":" ++ resource)) now) rule now = true) :
    (handleApplyRateLimit store repo clientID resource now).2 = none
    ∧ (handleApplyRateLimit store repo clientID resource now).1
        (clientID ++ ":" ++ resource)
      = store (clientID ++ ":" ++ resource)
        ++ [Event.applied
            { base :=
                { id := "applied-" ++ toString now, eventType := "RateLimitApplied"
                  time := now, aggrID := clientID ++ ":" ++ resource
                  version := (replayAggregate clientID resource
                    (store (clientID ++ ":" ++ resource)) now).version + 1 }
              clientID, resource
              windowStart := truncateTime now rule.window
              windowEnd := truncateTime now rule.window + rule.window
              requestCount := (replayAggregate clientID resource
                (store (clientID ++ ":" ++ resource)) now).state.requestCount + 1
              limit := rule.limit
              remainingQuota := rule.limit - ((replayAggregate clientID resource
                (store (clientID ++ ":" ++ resource)) now).state.requestCount + 1) }] := by
  unfold handleApplyRateLimit
  rw [hsel]
  dsimp only [getEvents]
  rw [hcan]
  unfold saveEvents
  rw [if_neg (by simp [replayAggregate_version])]
  simp

/-- Closed instance of C6: the first request of a fresh aggregate under a
`limit = 5` one-minute rule yields the applied event with window
`[0, 60s)`, count `1` and remaining quota `4`. -/
theorem claim_c6_applied_event_fields_witness :
    (handleApplyRateLimit freshStore [sampleFiveRule] "c" "api" 1000000000).2 = none
    ∧ (handleApplyRateLimit freshStore [sampleFiveRule] "c" "api" 1000000000).1
        ("c" ++ ":" ++ "api")
      = freshStore ("c" ++ ":" ++ "api")
        ++ [Event.applied
            { base :=
                { id := "applied-" ++ toString (1000000000 : Int)
                  eventType := "RateLimitApplied"
                  time := 1000000000, aggrID := "c" ++ ":" ++ "api"
                  version := (replayAggregate "c" "api"
                    (freshStore ("c" ++ ":" ++ "api")) 1000000000).version + 1 }
              clientID := "c", resource := "api"
              windowStart := truncateTime 1000000000 sampleFiveRule.window
              windowEnd := truncateTime 1000000000 sampleFiveRule.window
                + sampleFiveRule.window
              requestCount := (replayAggregate "c" "api"
                (freshStore ("c" ++ ":" ++ "api")) 1000000000).state.requestCount + 1
              limit := sampleFiveRule.limit
              remainingQuota := sampleFiveRule.limit
                - ((replayAggregate "c" "api"
                    (freshStore ("c" ++ ":" ++ "api")) 1000000000).state.requestCount
                  + 1) }] :=
  claim_c6_applied_event_fields freshStore [sampleFiveRule] "c" "api" 1000000000
    sampleFiveRule [] (by decide) (by decide)

/-! ## C4 — ResetRateLimit -/

/-- An event store whose `u:login` stream already holds one event. -/
def sampleStoreOneEvent : EventStore :=
  fun k => if k = "u:login" then
    [Event.applied
      { base :=
          { id := "applied-1", eventType := "RateLimitApplied"
            time := 1000000000, aggrID := "u:login", version := 1 }
        clientID := "u", resource := "login"
        windowStart := 0, windowEnd := 300000000000
        requestCount := 1, limit := 3, remainingQuota := 2 }]
  else []

/-- C4 failing input: on an aggregate with one persisted event, the
`ResetRateLimit` handler — which hardcodes `expectedVersion = 0` — fails
with a concurrency conflict and persists nothing, contradicting the
claim that reset succeeds for every prior state. -/
theorem claim_c4_reset_conflicts_on_existing_events :
    handleResetRateLimit sampleStoreOneEvent "u" "login" 2000000000
      = (sampleStoreOneEvent, some (.concurrencyConflict 0 1)) := by
  rfl

/-! ## C9 — blocked status short-circuits CheckRateLimit -/

/-- C9: when the current read-model status for the pair is blocked and
`now` is before `blockedUntil`, `CheckRateLimit` returns that status
unchanged and issues no `ApplyRateLimit` command: the event store — and
with it the aggregate's event stream and request counter — is returned
untouched. -/
theorem claim_c9_blocked_short_circuit (store : EventStore)
    (repo : List RateLimitRule) (rm : ReadModel) (clientID resource : String)
    (now : Int)
    (hb : (getRateLimitStatusRM rm clientID resource now).isBlocked = true)
    (ht : now < (getRateLimitStatusRM rm clientID resource now).blockedUntil) :
    checkRateLimitService store repo rm clientID resource now
      = .ok (getRateLimitStatusRM rm clientID resource now, store) := by
  unfold checkRateLimitService
  dsimp only
  rw [hb]
  simp [ht]

/-- A read-model status blocked until one minute after the epoch. -/
def sampleBlockedStatus : RateLimitStatus :=
  { clientID := "u", resource := "api", isAllowed := false, requestCount := 5
    limit := 5, remainingQuota := 0, windowStart := 0, windowEnd := 60000000000
    resetTime := 60000000000, isBlocked := true, blockedUntil := 60000000000
    retryAfter := 30 }

/-- A read model carrying `sampleBlockedStatus` for `u:api`. -/
def sampleBlockedRM : ReadModel :=
  { statuses := fun k => if k = "u:api" then some sampleBlockedStatus else none
    history := fun _ => [] }

/-- Closed instance of C9: with the blocked status installed and `now`
inside the block, the service call returns it with the store untouched. -/
theorem claim_c9_blocked_short_circuit_witness :
    checkRateLimitService freshStore [] sampleBlockedRM "u" "api" 1000000000
      = .ok (getRateLimitStatusRM sampleBlockedRM "u" "api" 1000000000, freshStore) :=
  claim_c9_blocked_short_circuit freshStore [] sampleBlockedRM "u" "api" 1000000000
    (by decide) (by decide)

/-! ## C1 — blocking rules short-circuit the integrated check -/

/-- The first matched result carrying a deny/block action determines
`getFirstBlockingRuleID`. -/
theorem getFirstBlockingRuleID_of_first (pre : List RuleEvaluationResult)
    (r : RuleEvaluationResult) (post : List RuleEvaluationResult)
    (hpre : ∀ x ∈ pre, isBlockingResult x = false)
    (hr : isBlockingResult r = true) :
    getFirstBlockingRuleID (pre ++ r :: post) = r.ruleID := by
  induction pre with
  | nil => simp [getFirstBlockingRuleID, hr]
  | cons x xs ih =>
    have hx : isBlockingResult x = false := hpre x (List.mem_cons_self x xs)
    rw [List.cons_append]
    unfold getFirstBlockingRuleID
    rw [hx]
    exact ih (fun y hy => hpre y (List.mem_cons_of_mem x hy))

/-- C1: when some matched rule result carries a `deny`/`block` action —
`r` being the first such result in evaluation order — the integrated
check returns `allowed = false`, reason `"blocked by rule"`,
`blockingRuleID = r.ruleID`, and the whole system state unchanged: in
particular no `ApplyRateLimit` command runs and the event store is
untouched, whatever the rate-limit state and the denying rule's
priority. -/
theorem claim_c1_blocking_rule_short_circuit (st : SystemState)
    (clientID resource ipAddress userAgent : String)
    (metadata : List (String × String)) (requestData : List (String × GoValue))
    (now : Int) (pre : List RuleEvaluationResult) (r : RuleEvaluationResult)
    (post : List RuleEvaluationResult)
    (hres : evaluateRules st.secRules
        { clientID, resource, ipAddress, userAgent, timestamp := now
          metadata, requestData }
      = pre ++ r :: post)
    (hpre : ∀ x ∈ pre, isBlockingResult x = false)
    (hr : isBlockingResult r = true) :
    checkRequestWithRules st clientID resource ipAddress userAgent metadata
      requestData now
      = .ok ({ allowed := false, reason := "blocked by rule"
               ruleResults := pre ++ r :: post, rateLimitStatus := none
               blockingRuleID := r.ruleID }, st) := by
  have hblock : hasBlockingAction (pre ++ r :: post) = true := by
    unfold hasBlockingAction
    rw [List.any_append]
    simp [hr]
  have hfirst : getFirstBlockingRuleID (pre ++ r :: post) = r.ruleID :=
    getFirstBlockingRuleID_of_first pre r post hpre hr
  unfold checkRequestWithRules
  dsimp only
  rw [hres, hblock, hfirst]
  simp

/-- The seeded blacklist rule denying suspicious user agents. -/
def denyRule : Rule :=
  { id := "block-suspicious-agents", name := "Block Suspicious User Agents"
    ruleType := "blacklist", priority := 200, enabled := true
    conditions := [{ field := "user_agent", operator := "contains"
                     value := GoValue.vString "bot" }]
    actions := [{ type := "deny", parameters := [] }] }

/-- The evaluation result of `denyRule` on a bot user agent. -/
def denyResult : RuleEvaluationResult :=
  { ruleID := "block-suspicious-agents", ruleName := "Block Suspicious User Agents"
    matched := true, actions := [{ type := "deny", parameters := [] }] }

/-- A system state holding only the deny rule. -/
def sampleSystem : SystemState :=
  { secRules := [denyRule], rlRules := [], eventStore := freshStore
    readModel := ReadModel.empty }

/-- Closed instance of C1: a bot user agent trips the seeded blacklist
rule and the integrated check denies with the rule's id, leaving the
state as it was. -/
theorem claim_c1_blocking_rule_short_circuit_witness :
    checkRequestWithRules sampleSystem "u" "api" "8.8.8.8" "evil-bot/1.0" [] [] 0
      = .ok ({ allowed := false, reason := "blocked by rule"
               ruleResults := [denyResult], rateLimitStatus := none
               blockingRuleID := "block-suspicious-agents" }, sampleSystem) :=
  claim_c1_blocking_rule_short_circuit sampleSystem "u" "api" "8.8.8.8"
    "evil-bot/1.0" [] [] 0 [] denyResult [] (by decide) (by simp) (by decide)

end RateLimiterProof
